import Mathlib

/-!
# Verification of the mvp_mission helm core

A shallow embedding of the `mvp_helm` finite state machine
(`src/mvp_helm/src/helm/sm.cpp`) and of the helm arbitration loop
(`src/mvp_helm/src/helm/helm.cpp`, `Helm::f_iterate`), together with theorems
settling the natural-language specification's claims about them.

Modelling conventions:
* C++ `std::vector` fields become Lean `List`s, iterated in order.
* `std::find_if` becomes `List.find?`.
* Fallible operations (`std::vector::front()` on a possibly-empty vector, a
  tick that may or may not publish) return `Option`.
* The per-DOF command values are C++ `double`s that the arbitration only ever
  copies and never computes with, so the value type is an arbitrary type `V`
  with a zero (the zero models the value-initialised `std::array<double, K>`).
  Likewise the feedback message is only passed through to behaviors, so it is
  an arbitrary type `F`.
* Integer priorities are C++ `int`s used only in order comparisons, so they
  are modelled as `Int`.
-/

namespace MvpHelm

/-- Number of controllable degrees of freedom.
Modelled from the spec: the DOF enumeration `ctrl::DOF::IDX` and the constant
`ctrl::CONTROLLABLE_DOF_LENGTH` live in the `mvp_control` dictionary header,
which is outside this repository's sources; the spec fixes only that the DOF
count `K` is a fixed total count. No claim depends on the exact value. -/
def CONTROLLABLE_DOF_LENGTH : Nat := 12

/-- A DOF index (`ctrl::DOF::IDX`, used as an array index in `Helm::f_iterate`). -/
abbrev DofIdx := Fin CONTROLLABLE_DOF_LENGTH

/-- `helm::sm_state_t`: state name, controller mode name, initial flag and the
set of state names this state may transition to (`transitions`). -/
structure SmState where
  name : String
  mode : String
  initial : Bool
  transitions : List String
  deriving DecidableEq

/-- `helm::StateMachine`: the declared states `m_states` and the active state
`m_active_state` (a value, copied on every mutation, never a reference). -/
structure StateMachine where
  states : List SmState
  active : SmState
  deriving DecidableEq

/-- `StateMachine::append_state` (sm.cpp lines 6-8): `m_states.emplace_back`.
It appends one state to the declared list and performs no uniqueness check. -/
def append_state (states : List SmState) (s : SmState) : List SmState :=
  states ++ [s]

/-- `StateMachine::translate_to` (sm.cpp lines 10-40). Returns the C++ return
value paired with the state machine afterwards. The source computes
`state_idx` (`find_if` over `m_states` for a state of that name) and
`transition_idx` (`find_if` over the active state's `transitions`); it fails
first when the name is not among the active state's transitions, then when no
declared state carries the name; only when both lookups succeed does it set
`m_active_state` to a copy of the found state and return `true`. -/
def translate_to (sm : StateMachine) (name : String) : Bool × StateMachine :=
  let state_idx := sm.states.find? (fun v => v.name == name)
  let transition_idx := sm.active.transitions.find? (fun v => v == name)
  match transition_idx with
  | none => (false, sm)
  | some _ =>
    match state_idx with
    | some s => (true, { sm with active := s })
    | none => (false, sm)

/-- `StateMachine::get_active_state` (sm.cpp lines 42-44): returns a copy of
`m_active_state`. -/
def get_active_state (sm : StateMachine) : SmState := sm.active

/-- `StateMachine::initialize` (sm.cpp lines 46-63): `find_if` for the first
declared state whose `initial` flag is set; if found it becomes the active
state, otherwise `m_states.front()` does. `front()` on an empty vector is the
failure case (undefined behaviour in C++), modelled as `List.head?` returning
`none`. The result is the selected active state. -/
def sm_init (states : List SmState) : Option SmState :=
  match states.find? (fun t => t.initial) with
  | some s => some s
  | none => states.head?

/-- `StateMachine::get_state` (sm.cpp lines 65-82): lookup-only `find_if` over
`m_states`; the C++ bool-and-out-parameter pair is modelled as `Option`. -/
def get_state (sm : StateMachine) (name : String) : Option SmState :=
  sm.states.find? (fun v => v.name == name)

/-- The state-machine portion of `Helm::initialize` (helm.cpp lines 51-111):
every parsed state declaration is forwarded by `f_generate_sm_states`
(helm.cpp lines 169-173) to `append_state`, in declaration order, and then
`StateMachine::initialize` selects the active state (helm.cpp line 98). No
startup step checks state-name uniqueness; the only failure of this path is
`StateMachine::initialize` on an empty state list, and a failure here aborts
startup before `Helm::run` ever starts the tick loop. -/
def helm_startup_sm (parsed : List SmState) : Option StateMachine :=
  let sts := parsed.foldl append_state []
  (sm_init sts).map (fun a => { states := sts, active := a })

/-- Folding `append_state` over the parsed declarations reproduces the
declaration list in order. -/
theorem foldl_append_state (parsed acc : List SmState) :
    parsed.foldl append_state acc = acc ++ parsed := by
  induction parsed generalizing acc with
  | nil => simp
  | cons s rest ih => simp [append_state, ih]

/-- `sm_init` succeeds on every non-empty state list. -/
theorem sm_init_isSome_of_ne_nil (states : List SmState) (h : states ≠ []) :
    (sm_init states).isSome = true := by
  cases states with
  | nil => exact absurd rfl h
  | cons s rest =>
    unfold sm_init
    cases hf : (s :: rest).find? (fun t => t.initial) <;> simp

/-- A `find?` over a name predicate succeeds exactly when a list element
carries the name. -/
theorem find?_name_isSome (states : List SmState) (name : String) :
    (states.find? (fun v => v.name == name)).isSome = true ↔
      ∃ s ∈ states, s.name = name := by
  rw [List.find?_isSome]
  constructor
  · rintro ⟨s, hs, hn⟩
    exact ⟨s, hs, beq_iff_eq.mp hn⟩
  · rintro ⟨s, hs, hn⟩
    exact ⟨s, hs, beq_iff_eq.mpr hn⟩

/-- Claim C3. `StateMachine::translate_to` returns `true` and moves the
active state to a declared state of the requested name exactly when the name
is among the current active state's `transitions` and some declared state
carries that name; in every other case it returns `false` and leaves the
state machine unchanged. -/
theorem translate_to_legality (sm : StateMachine) (name : String) :
    ((translate_to sm name).1 = true ↔
      name ∈ sm.active.transitions ∧ ∃ s ∈ sm.states, s.name = name)
    ∧ ((translate_to sm name).1 = true →
      ∃ s ∈ sm.states, s.name = name ∧ (translate_to sm name).2.active = s)
    ∧ ((translate_to sm name).1 = false → (translate_to sm name).2 = sm) := by
  unfold translate_to
  cases ht : sm.active.transitions.find? (fun v => v == name) with
  | none =>
    have hmem : name ∉ sm.active.transitions := by
      intro hmem
      have := List.find?_eq_none.mp ht name hmem
      simp at this
    refine ⟨?_, ?_, ?_⟩
    · simp [hmem]
    · intro h
      simp at h
    · intro _
      rfl
  | some t =>
    have htr : name ∈ sm.active.transitions := by
      have heq : t = name := by
        have := List.find?_some ht
        exact beq_iff_eq.mp this
      exact heq ▸ List.mem_of_find?_eq_some ht
    cases hs : sm.states.find? (fun v => v.name == name) with
    | none =>
      have hno : ¬ ∃ s ∈ sm.states, s.name = name := by
        rintro ⟨s, hmem, hn⟩
        have := List.find?_eq_none.mp hs s hmem
        simp [hn] at this
      refine ⟨?_, ?_, ?_⟩
      · simp [hno]
      · intro h
        simp at h
      · intro _
        rfl
    | some s =>
      have hfs := List.find?_some hs
      have hsn : s.name = name := beq_iff_eq.mp hfs
      have hsm : s ∈ sm.states := List.mem_of_find?_eq_some hs
      refine ⟨?_, ?_, ?_⟩
      · simp [htr]
        exact ⟨s, hsm, hsn⟩
      · intro _
        exact ⟨s, hsm, hsn, rfl⟩
      · intro h
        simp at h

/-- Claim C4. `StateMachine::initialize` on a non-empty declared list selects
the first declared state whose `initial` flag is set, and falls back to the
first declared state when no state carries the flag. -/
theorem sm_init_selects_first_initial (pre post rest : List SmState)
    (s : SmState) :
    ((∀ t ∈ pre, t.initial = false) → s.initial = true →
      sm_init (pre ++ s :: post) = some s)
    ∧ ((∀ t ∈ s :: rest, t.initial = false) → sm_init (s :: rest) = some s) := by
  constructor
  · intro hpre hs
    have hf : (pre ++ s :: post).find? (fun t => t.initial) = some s := by
      induction pre with
      | nil => exact List.find?_cons_of_pos _ hs
      | cons t ts ih =>
        have ht : ¬ (t.initial = true) := by
          simp [hpre t (by simp)]
        rw [List.cons_append, List.find?_cons_of_neg _ ht]
        exact ih (fun u hu => hpre u (by simp [hu]))
    unfold sm_init
    rw [hf]
  · intro hall
    have hf : (s :: rest).find? (fun t => t.initial) = none := by
      rw [List.find?_eq_none]
      intro x hx
      simp [hall x hx]
    unfold sm_init
    rw [hf]
    rfl

/-- Claim C5. `StateMachine::initialize` fails exactly on the empty declared
state list (`m_states.front()` on an empty vector, the modelled failure);
every non-empty list yields an active state. It runs inside
`Helm::initialize`, before `Helm::run` starts the tick loop, so its failure
is a startup failure. -/
theorem sm_init_none_iff_empty (states : List SmState) :
    sm_init states = none ↔ states = [] := by
  cases states with
  | nil => simp [sm_init]
  | cons s rest =>
    unfold sm_init
    cases hf : (s :: rest).find? (fun t => t.initial) <;> simp

/-- A first duplicate-named state for the C8 counterexample. -/
def dupStA : SmState :=
  { name := "A", mode := "m1", initial := false, transitions := [] }

/-- A second, distinct state with the same name for the C8 counterexample. -/
def dupStB : SmState :=
  { name := "A", mode := "m2", initial := false, transitions := [] }

/-- Counterexample to claim C8: a declared list with two states of the same
name passes the startup state-machine path without any error — duplicate
names are never detected, so they are not fatal at startup and the process
does begin ticking. -/
theorem startup_accepts_duplicate_states :
    dupStA.name = dupStB.name ∧ dupStA ≠ dupStB ∧
      (helm_startup_sm [dupStA, dupStB]).isSome = true := by
  refine ⟨rfl, by decide, rfl⟩

/-- Claim C8 as amended. `append_state` performs no uniqueness check and no
later startup step detects duplicate names either: any state list containing
two states of equal name (necessarily non-empty) passes the startup
state-machine path successfully, and the tick loop starts normally. -/
theorem startup_ignores_duplicate_names (l1 l2 l3 : List SmState)
    (s1 s2 : SmState) (hdup : s1.name = s2.name) :
    (helm_startup_sm (l1 ++ s1 :: l2 ++ s2 :: l3)).isSome = true := by
  have h := sm_init_isSome_of_ne_nil (l1 ++ s1 :: l2 ++ s2 :: l3) (by simp)
  unfold helm_startup_sm
  rw [foldl_append_state, List.nil_append]
  obtain ⟨a, ha⟩ := Option.isSome_iff_exists.mp h
  simp [ha]
  simpa using h

/-- Witness for the amended claim C8 at a concrete duplicate-named list. -/
theorem startup_ignores_duplicate_names_at_point :
    (helm_startup_sm ([] ++ dupStA :: [] ++ dupStB :: [])).isSome = true :=
  startup_ignores_duplicate_names [] [] [] dupStA dupStB rfl

/-! ## The arbitration engine (`Helm::f_iterate`, helm.cpp lines 186-299) -/

/-- `mvp_control::ControlMode`: a mode name and the ordered DOF list it
controls. The source casts the raw message entries to `ctrl::DOF::IDX`
(helm.cpp lines 210-218); the model holds the post-cast indices. -/
structure ControlMode where
  name : String
  dofs : List DofIdx
  deriving DecidableEq

/-- A `helm::BehaviorContainer` as the tick consumes it: the owned behavior's
fixed claimed DOF set (`get_dofs()`), its proposal function, and the
`BehaviorOptions` state-to-priority map (`get_opts().states`, a `std::map`
modelled as an association list). `propose` bundles the per-tick calls
`set_active_dofs`, `register_process_values` and `request_set_point`
(helm.cpp lines 226-246): given the active DOF list and the feedback it
returns `none` when `request_set_point` returns `false`, and otherwise the
proposed set point already converted to its DOF-indexed array form
(`utils::control_process_to_array`, helm.cpp lines 275-276). -/
structure BehaviorContainer (F V : Type) where
  dofs : List DofIdx
  propose : List DofIdx → F → Option (DofIdx → V)
  opts_states : List (String × Int)

/-- The tick's scratch arrays (helm.cpp lines 223-224): per-DOF command
values `dof_ctrl` and per-DOF winning priorities `dof_priority`. -/
@[ext]
structure MergeAcc (V : Type) where
  dofCtrl : DofIdx → V
  dofPriority : DofIdx → Int

/-- Writing one cell of a DOF-indexed array. -/
def updf {α : Type} (f : DofIdx → α) (d : DofIdx) (v : α) : DofIdx → α :=
  fun x => if x = d then v else f x

/-- The inner merge loop (helm.cpp lines 278-286): for each DOF the behavior
claims, overwrite value and priority exactly when the behavior's priority is
strictly greater than the recorded one. -/
def dofLoop {V : Type} (priority : Int) (setPoint : DofIdx → V) :
    List DofIdx → MergeAcc V → MergeAcc V
  | [], acc => acc
  | d :: rest, acc =>
      dofLoop priority setPoint rest
        (if priority > acc.dofPriority d then
          { dofCtrl := updf acc.dofCtrl d (setPoint d),
            dofPriority := updf acc.dofPriority d priority }
        else acc)

/-- One behavior's processing inside the tick loop (helm.cpp lines 226-288),
in source order: skip when `request_set_point` returned `false`; skip when
the active state's name is not a key of the behavior's `states` map; read the
priority for the active state; skip when the claimed DOF set is empty;
otherwise run the per-DOF merge. -/
def mergeStep {F V : Type} (activeName : String) (activeDofs : List DofIdx)
    (fb : F) (acc : MergeAcc V) (b : BehaviorContainer F V) : MergeAcc V :=
  match b.propose activeDofs fb with
  | none => acc
  | some setPoint =>
    match b.opts_states.lookup activeName with
    | none => acc
    | some priority =>
      if b.dofs.isEmpty then acc
      else dofLoop priority setPoint b.dofs acc

/-- The tick loop over all behavior containers in declaration order. -/
def mergeFold {F V : Type} (activeName : String) (activeDofs : List DofIdx)
    (fb : F) (bs : List (BehaviorContainer F V)) (acc : MergeAcc V) :
    MergeAcc V :=
  bs.foldl (mergeStep activeName activeDofs fb) acc

/-- The scratch arrays as `Helm::f_iterate` value-initialises them
(helm.cpp lines 223-224): every command value and every priority is zero. -/
def mergeInit (V : Type) [Zero V] : MergeAcc V :=
  { dofCtrl := fun _ => 0, dofPriority := fun _ => 0 }

/-- The whole per-tick merge starting from the zero-initialised scratch. -/
def mergeBehaviors {F V : Type} [Zero V] (activeName : String)
    (activeDofs : List DofIdx) (fb : F) (bs : List (BehaviorContainer F V)) :
    MergeAcc V :=
  mergeFold activeName activeDofs fb bs (mergeInit V)

/-- The outgoing set-point message (helm.cpp lines 290-297): the merged DOF
array stamped with the active state's controller mode. The time stamp is not
modelled. -/
structure Command (V : Type) where
  values : DofIdx → V
  control_mode : String

/-- Everything one call of `Helm::f_iterate` makes observable: the published
command, if any, and whether the rate-limited missing-mode warning fired. -/
structure TickResult (V : Type) where
  published : Option (Command V)
  warned : Bool

/-- `Helm::f_iterate` (helm.cpp lines 186-299). If no feedback message has
arrived (`m_controller_process_values == nullptr`) the tick returns at once:
nothing published, no warning, no behavior invoked, no state touched. With
feedback present, the active state's mode is looked up in the cached
controller modes; if absent the tick warns (rate-limited) and returns without
publishing. Otherwise the behaviors are merged and the merged command is
published. The function is pure: the source mutates none of the helm's
fields here, so the embedding returns only the tick's observables. -/
def f_iterate {F V : Type} [Zero V] (feedback : Option F)
    (modes : List ControlMode) (sm : StateMachine)
    (behaviors : List (BehaviorContainer F V)) : TickResult V :=
  match feedback with
  | none => { published := none, warned := false }
  | some fb =>
    match modes.find? (fun m => m.name == (get_active_state sm).mode) with
    | none => { published := none, warned := true }
    | some active_mode =>
      { published := some
          { values := (mergeBehaviors (get_active_state sm).name
              active_mode.dofs fb behaviors).dofCtrl,
            control_mode := (get_active_state sm).mode },
        warned := false }

/-! ## Characterisation of the merge -/

/-- Pointwise effect of the inner DOF loop: at any DOF `d`, the priority cell
becomes `q` exactly when `d` is claimed and the recorded priority is strictly
below `q`, and in that case the value cell takes the proposal; otherwise both
cells are untouched. -/
theorem dofLoop_char {V : Type} (q : Int) (p : DofIdx → V) (ds : List DofIdx)
    (acc : MergeAcc V) (d : DofIdx) :
    ((dofLoop q p ds acc).dofPriority d =
      if d ∈ ds ∧ acc.dofPriority d < q then q else acc.dofPriority d)
    ∧ ((dofLoop q p ds acc).dofCtrl d =
      if d ∈ ds ∧ acc.dofPriority d < q then p d else acc.dofCtrl d) := by
  induction ds generalizing acc with
  | nil => simp [dofLoop]
  | cons e rest ih =>
    rw [dofLoop]
    by_cases he : acc.dofPriority e < q
    · rw [if_pos (by exact he)]
      rcases ih { dofCtrl := updf acc.dofCtrl e (p e),
                  dofPriority := updf acc.dofPriority e q } with ⟨ihp, ihv⟩
      rw [ihp, ihv]
      by_cases hde : d = e
      · subst hde
        simp [updf, he]
      · simp [updf, hde]
    · rw [if_neg (by exact he)]
      rcases ih acc with ⟨ihp, ihv⟩
      rw [ihp, ihv]
      by_cases hde : d = e
      · subst hde
        simp [he]
      · simp [hde]

/-- Pointwise effect of one behavior's processing when the behavior is
eligible: proposal delivered and a priority configured for the active state. -/
theorem mergeStep_char {F V : Type} (activeName : String)
    (activeDofs : List DofIdx) (fb : F) (acc : MergeAcc V)
    (b : BehaviorContainer F V) (p : DofIdx → V) (q : Int) (d : DofIdx)
    (hp : b.propose activeDofs fb = some p)
    (hq : b.opts_states.lookup activeName = some q) :
    ((mergeStep activeName activeDofs fb acc b).dofPriority d =
      if d ∈ b.dofs ∧ acc.dofPriority d < q then q else acc.dofPriority d)
    ∧ ((mergeStep activeName activeDofs fb acc b).dofCtrl d =
      if d ∈ b.dofs ∧ acc.dofPriority d < q then p d else acc.dofCtrl d) := by
  have hstep : mergeStep activeName activeDofs fb acc b =
      if b.dofs.isEmpty then acc else dofLoop q p b.dofs acc := by
    unfold mergeStep
    rw [hp, hq]
  rw [hstep]
  by_cases hb : b.dofs.isEmpty
  · have hnil : b.dofs = [] := List.isEmpty_iff.mp hb
    rw [if_pos hb]
    simp [hnil]
  · rw [if_neg hb]
    exact dofLoop_char q p b.dofs acc d

/-- A behavior whose `request_set_point` returned `false` is skipped whole. -/
theorem mergeStep_skip_propose {F V : Type} (activeName : String)
    (activeDofs : List DofIdx) (fb : F) (acc : MergeAcc V)
    (b : BehaviorContainer F V) (hp : b.propose activeDofs fb = none) :
    mergeStep activeName activeDofs fb acc b = acc := by
  unfold mergeStep
  rw [hp]

/-- A behavior whose `states` map has no key for the active state is skipped
whole, whatever its proposal was. -/
theorem mergeStep_skip_state {F V : Type} (activeName : String)
    (activeDofs : List DofIdx) (fb : F) (acc : MergeAcc V)
    (b : BehaviorContainer F V)
    (hk : b.opts_states.lookup activeName = none) :
    mergeStep activeName activeDofs fb acc b = acc := by
  unfold mergeStep
  cases hp : b.propose activeDofs fb with
  | none => rfl
  | some sp => rw [hk]

/-- One behavior's processing never lowers a recorded priority, and when it
leaves the priority of a DOF unchanged it leaves its value unchanged too. -/
theorem mergeStep_mono {F V : Type} (activeName : String)
    (activeDofs : List DofIdx) (fb : F) (acc : MergeAcc V)
    (b : BehaviorContainer F V) (d : DofIdx) :
    acc.dofPriority d ≤ (mergeStep activeName activeDofs fb acc b).dofPriority d
    ∧ ((mergeStep activeName activeDofs fb acc b).dofPriority d =
        acc.dofPriority d →
      (mergeStep activeName activeDofs fb acc b).dofCtrl d = acc.dofCtrl d) := by
  cases hp : b.propose activeDofs fb with
  | none =>
    rw [mergeStep_skip_propose activeName activeDofs fb acc b hp]
    exact ⟨le_refl _, fun _ => rfl⟩
  | some p =>
    cases hq : b.opts_states.lookup activeName with
    | none =>
      rw [mergeStep_skip_state activeName activeDofs fb acc b hq]
      exact ⟨le_refl _, fun _ => rfl⟩
    | some q =>
      rcases mergeStep_char activeName activeDofs fb acc b p q d hp hq
        with ⟨hP, hV⟩
      rw [hP, hV]
      by_cases hc : d ∈ b.dofs ∧ acc.dofPriority d < q
      · rw [if_pos hc, if_pos hc]
        exact ⟨le_of_lt hc.2, fun hEq => absurd hEq (ne_of_gt hc.2)⟩
      · rw [if_neg hc, if_neg hc]
        exact ⟨le_refl _, fun _ => rfl⟩

/-- The tick loop never lowers a recorded priority, and when the loop leaves
a DOF's priority unchanged it leaves its value unchanged too. -/
theorem mergeFold_mono {F V : Type} (activeName : String)
    (activeDofs : List DofIdx) (fb : F) (bs : List (BehaviorContainer F V))
    (acc : MergeAcc V) (d : DofIdx) :
    acc.dofPriority d ≤
      (mergeFold activeName activeDofs fb bs acc).dofPriority d
    ∧ ((mergeFold activeName activeDofs fb bs acc).dofPriority d =
        acc.dofPriority d →
      (mergeFold activeName activeDofs fb bs acc).dofCtrl d =
        acc.dofCtrl d) := by
  induction bs generalizing acc with
  | nil => exact ⟨le_refl _, fun _ => rfl⟩
  | cons b rest ih =>
    unfold mergeFold at ih ⊢
    rw [List.foldl_cons]
    rcases mergeStep_mono activeName activeDofs fb acc b d with ⟨h1, h2⟩
    rcases ih (mergeStep activeName activeDofs fb acc b) with ⟨h3, h4⟩
    constructor
    · exact le_trans h1 h3
    · intro hEq
      have hmid : (mergeStep activeName activeDofs fb acc b).dofPriority d =
          acc.dofPriority d := le_antisymm (hEq ▸ h3) h1
      rw [h4 (hEq.trans hmid.symm), h2 hmid]

/-- The merged priorities start at zero and never go below it, and a DOF
whose final priority is still zero keeps the zero-initialised value: a DOF is
won only together with a strictly positive recorded priority. -/
theorem mergeBehaviors_zero_floor {F V : Type} [Zero V] (activeName : String)
    (activeDofs : List DofIdx) (fb : F) (bs : List (BehaviorContainer F V))
    (d : DofIdx) :
    0 ≤ (mergeBehaviors activeName activeDofs fb bs).dofPriority d
    ∧ ((mergeBehaviors activeName activeDofs fb bs).dofPriority d = 0 →
      (mergeBehaviors activeName activeDofs fb bs).dofCtrl d = 0) := by
  unfold mergeBehaviors
  rcases mergeFold_mono activeName activeDofs fb bs (mergeInit V) d
    with ⟨h1, h2⟩
  have hip : (mergeInit V).dofPriority d = 0 := rfl
  constructor
  · exact hip ▸ h1
  · intro h0
    rw [h2 (by rw [h0, hip])]
    rfl

/-- On a scratch state with non-negative priorities, a behavior whose
configured priority for the active state is non-positive is a no-op: the
strict greater-than test against the zero floor never passes. -/
theorem mergeStep_nonpos_eq {F V : Type} (activeName : String)
    (activeDofs : List DofIdx) (fb : F) (acc : MergeAcc V)
    (b : BehaviorContainer F V) (q : Int)
    (hq : b.opts_states.lookup activeName = some q) (hq0 : q ≤ 0)
    (hnn : ∀ e, 0 ≤ acc.dofPriority e) :
    mergeStep activeName activeDofs fb acc b = acc := by
  cases hp : b.propose activeDofs fb with
  | none => exact mergeStep_skip_propose activeName activeDofs fb acc b hp
  | some p =>
    have hcond : ∀ e, ¬ (e ∈ b.dofs ∧ acc.dofPriority e < q) := by
      intro e hc
      exact absurd (lt_of_lt_of_le hc.2 hq0)
        (not_lt_of_le (hnn e))
    ext e
    · rcases mergeStep_char activeName activeDofs fb acc b p q e hp hq
        with ⟨_, hV⟩
      rw [hV, if_neg (hcond e)]
    · rcases mergeStep_char activeName activeDofs fb acc b p q e hp hq
        with ⟨hP, _⟩
      rw [hP, if_neg (hcond e)]

/-- Splitting the tick loop over a concatenated behavior list. -/
theorem mergeFold_append {F V : Type} (activeName : String)
    (activeDofs : List DofIdx) (fb : F)
    (l1 l2 : List (BehaviorContainer F V)) (acc : MergeAcc V) :
    mergeFold activeName activeDofs fb (l1 ++ l2) acc =
      mergeFold activeName activeDofs fb l2
        (mergeFold activeName activeDofs fb l1 acc) := by
  unfold mergeFold
  rw [List.foldl_append]

/-- A behavior in the middle of the list that is a no-op on the scratch state
reached just before it contributes nothing to the merge. -/
theorem mergeBehaviors_drop_middle {F V : Type} [Zero V] (activeName : String)
    (activeDofs : List DofIdx) (fb : F)
    (l1 l2 : List (BehaviorContainer F V)) (b : BehaviorContainer F V)
    (hskip : mergeStep activeName activeDofs fb
        (mergeFold activeName activeDofs fb l1 (mergeInit V)) b =
      mergeFold activeName activeDofs fb l1 (mergeInit V)) :
    mergeBehaviors activeName activeDofs fb (l1 ++ b :: l2) =
      mergeBehaviors activeName activeDofs fb (l1 ++ l2) := by
  unfold mergeBehaviors
  rw [mergeFold_append, mergeFold_append]
  unfold mergeFold at hskip ⊢
  rw [List.foldl_cons, hskip]

/-- Two behavior lists that merge identically under every feedback and active
mode produce identical ticks. -/
theorem f_iterate_congr {F V : Type} [Zero V] (feedback : Option F)
    (modes : List ControlMode) (sm : StateMachine)
    (bs1 bs2 : List (BehaviorContainer F V))
    (h : ∀ (fb : F) (am : ControlMode),
      modes.find? (fun m => m.name == (get_active_state sm).mode) = some am →
      mergeBehaviors (get_active_state sm).name am.dofs fb bs1 =
        mergeBehaviors (get_active_state sm).name am.dofs fb bs2) :
    f_iterate feedback modes sm bs1 = f_iterate feedback modes sm bs2 := by
  unfold f_iterate
  cases feedback with
  | none => rfl
  | some fb =>
    cases hm : modes.find? (fun m => m.name == (get_active_state sm).mode) with
    | none => rfl
    | some am =>
      dsimp only
      rw [h fb am hm]

/-- An association-list lookup misses exactly when no entry carries the key. -/
theorem lookup_none_of_no_key {β : Type} (key : String)
    (l : List (String × β)) (h : ∀ pr ∈ l, pr.1 ≠ key) :
    l.lookup key = none := by
  induction l with
  | nil => rfl
  | cons pr rest ih =>
    obtain ⟨k, v⟩ := pr
    have hne := h (k, v) (by simp)
    have hk : (key == k) = false := by
      simp only [ne_eq] at hne
      exact beq_eq_false_iff_ne.mpr (fun he => hne he.symm)
    simp only [List.lookup, hk]
    exact ih (fun pr hpr => h pr (by simp [hpr]))

/-! ## Claim theorems about the tick -/

/-- Claim C6. A tick with no feedback received publishes nothing, warns
nothing and (being a pure function of the helm's state) changes nothing; a
tick with feedback but no cached mode entry for the active state's mode
publishes nothing and only fires the rate-limited warning; a command is
published exactly when feedback exists and the mode lookup succeeds. -/
theorem tick_preconditions {F V : Type} [Zero V] (feedback : Option F)
    (modes : List ControlMode) (sm : StateMachine)
    (behaviors : List (BehaviorContainer F V)) :
    (feedback = none →
      f_iterate feedback modes sm behaviors =
        { published := none, warned := false })
    ∧ (feedback.isSome = true →
      modes.find? (fun m => m.name == (get_active_state sm).mode) = none →
      f_iterate feedback modes sm behaviors =
        { published := none, warned := true })
    ∧ ((f_iterate feedback modes sm behaviors).published.isSome = true ↔
      feedback.isSome = true ∧
        (modes.find? (fun m => m.name == (get_active_state sm).mode)).isSome
          = true) := by
  unfold f_iterate
  cases feedback with
  | none =>
    refine ⟨fun _ => rfl, ?_, ?_⟩
    · intro h
      simp at h
    · simp
  | some fb =>
    cases hm : modes.find? (fun m => m.name == (get_active_state sm).mode) with
    | none =>
      refine ⟨?_, fun _ _ => rfl, ?_⟩
      · intro h
        simp at h
      · simp
    | some am =>
      dsimp only
      refine ⟨?_, ?_, ?_⟩
      · intro h
        simp at h
      · intro _ hc
        simp at hc
      · simp

/-- Claim C7. A behavior whose `BehaviorOptions.states` map does not contain
the active state's name as a key contributes nothing to the tick: the tick
over a behavior list containing it equals the tick with it removed, whatever
it proposed and whatever DOFs it claims. -/
theorem state_gating {F V : Type} [Zero V] (feedback : Option F)
    (modes : List ControlMode) (sm : StateMachine)
    (l1 l2 : List (BehaviorContainer F V)) (b : BehaviorContainer F V)
    (hk : ∀ pr ∈ b.opts_states, pr.1 ≠ (get_active_state sm).name) :
    f_iterate feedback modes sm (l1 ++ b :: l2) =
      f_iterate feedback modes sm (l1 ++ l2) := by
  apply f_iterate_congr
  intro fb am _
  apply mergeBehaviors_drop_middle
  exact mergeStep_skip_state _ _ _ _ _
    (lookup_none_of_no_key (get_active_state sm).name b.opts_states hk)

/-- Claim C9. A behavior whose configured priority for the active state is
non-positive never contributes to the published command — the scratch
priorities start at zero, not at the minimum representable integer, and the
comparison is strictly greater-than — and every DOF's recorded priority stays
non-negative, with a DOF won only together with a strictly positive recorded
priority (a zero final priority keeps the zero-initialised value). -/
theorem nonpositive_priority_contributes_nothing {F V : Type} [Zero V]
    (feedback : Option F) (modes : List ControlMode) (sm : StateMachine)
    (l1 l2 : List (BehaviorContainer F V)) (b : BehaviorContainer F V)
    (q : Int) (hq : b.opts_states.lookup (get_active_state sm).name = some q)
    (hq0 : q ≤ 0) :
    f_iterate feedback modes sm (l1 ++ b :: l2) =
      f_iterate feedback modes sm (l1 ++ l2)
    ∧ ∀ (n : String) (A : List DofIdx) (fb : F)
        (bs : List (BehaviorContainer F V)) (d : DofIdx),
        0 ≤ (mergeBehaviors n A fb bs).dofPriority d
        ∧ ((mergeBehaviors n A fb bs).dofPriority d = 0 →
          (mergeBehaviors n A fb bs).dofCtrl d = 0) := by
  constructor
  · apply f_iterate_congr
    intro fb am _
    apply mergeBehaviors_drop_middle
    apply mergeStep_nonpos_eq _ _ _ _ _ q hq hq0
    intro e
    exact (mergeFold_mono (get_active_state sm).name am.dofs fb l1
      (mergeInit V) e).1
  · intro n A fb bs d
    exact mergeBehaviors_zero_floor n A fb bs d

/-- Claim C10. The per-DOF merge iterates over the behavior's full claimed
DOF set without intersecting it with the active mode's DOF list: an eligible
behavior with positive priority writes a claimed DOF into the published
command even when that DOF is not among the active mode's DOFs (the active
list is only forwarded to the behavior through `propose`, never enforced by
the arbitration itself). -/
theorem claimed_dof_outside_mode_written {F V : Type} [Zero V]
    (modes : List ControlMode) (sm : StateMachine) (fb : F)
    (am : ControlMode) (b : BehaviorContainer F V) (p : DofIdx → V)
    (q : Int) (d : DofIdx)
    (hm : modes.find? (fun m => m.name == (get_active_state sm).mode) =
      some am)
    (hout : d ∉ am.dofs)
    (hp : b.propose am.dofs fb = some p)
    (hq : b.opts_states.lookup (get_active_state sm).name = some q)
    (hq0 : 0 < q) (hd : d ∈ b.dofs) :
    (f_iterate (some fb) modes sm [b]).published.map (fun c => c.values d) =
      some (p d) := by
  unfold f_iterate
  rw [hm]
  dsimp only [Option.map]
  have hmb : mergeBehaviors (get_active_state sm).name am.dofs fb [b] =
      mergeStep (get_active_state sm).name am.dofs fb (mergeInit V) b := rfl
  rw [hmb]
  rcases mergeStep_char (get_active_state sm).name am.dofs fb (mergeInit V)
    b p q d hp hq with ⟨_, hV⟩
  rw [hV, if_pos ⟨hd, hq0⟩]

/-- Claim C1 as amended. With exactly two eligible behaviors claiming DOF
`d` for the active state at different priorities, and the higher priority
strictly positive, the published value at `d` is the higher-priority
behavior's proposal, in either declaration order. -/
theorem strict_priority_wins {F V : Type} [Zero V]
    (modes : List ControlMode) (sm : StateMachine) (fb : F)
    (am : ControlMode) (b1 b2 : BehaviorContainer F V)
    (p1 p2 : DofIdx → V) (q1 q2 : Int) (d : DofIdx)
    (hm : modes.find? (fun m => m.name == (get_active_state sm).mode) =
      some am)
    (hp1 : b1.propose am.dofs fb = some p1)
    (hp2 : b2.propose am.dofs fb = some p2)
    (hq1 : b1.opts_states.lookup (get_active_state sm).name = some q1)
    (hq2 : b2.opts_states.lookup (get_active_state sm).name = some q2)
    (hd1 : d ∈ b1.dofs) (hd2 : d ∈ b2.dofs)
    (hlt : q2 < q1) (hpos : 0 < q1) :
    (f_iterate (some fb) modes sm [b1, b2]).published.map
        (fun c => c.values d) = some (p1 d)
    ∧ (f_iterate (some fb) modes sm [b2, b1]).published.map
        (fun c => c.values d) = some (p1 d) := by
  unfold f_iterate
  rw [hm]
  dsimp only [Option.map]
  constructor
  · have hmb : mergeBehaviors (get_active_state sm).name am.dofs fb [b1, b2] =
        mergeStep (get_active_state sm).name am.dofs fb
          (mergeStep (get_active_state sm).name am.dofs fb (mergeInit V) b1)
          b2 := rfl
    rw [hmb]
    rcases mergeStep_char (get_active_state sm).name am.dofs fb (mergeInit V)
      b1 p1 q1 d hp1 hq1 with ⟨hP1, hV1⟩
    have hacc1 : (mergeStep (get_active_state sm).name am.dofs fb
        (mergeInit V) b1).dofPriority d = q1 := by
      rw [hP1, if_pos ⟨hd1, hpos⟩]
    rcases mergeStep_char (get_active_state sm).name am.dofs fb
      (mergeStep (get_active_state sm).name am.dofs fb (mergeInit V) b1)
      b2 p2 q2 d hp2 hq2 with ⟨_, hV2⟩
    rw [hV2, if_neg (fun hc => absurd (hacc1 ▸ hc.2) (not_lt_of_gt hlt)),
      hV1, if_pos ⟨hd1, hpos⟩]
  · have hmb : mergeBehaviors (get_active_state sm).name am.dofs fb [b2, b1] =
        mergeStep (get_active_state sm).name am.dofs fb
          (mergeStep (get_active_state sm).name am.dofs fb (mergeInit V) b2)
          b1 := rfl
    rw [hmb]
    rcases mergeStep_char (get_active_state sm).name am.dofs fb (mergeInit V)
      b2 p2 q2 d hp2 hq2 with ⟨hP2, hV2⟩
    have hlt2 : (mergeStep (get_active_state sm).name am.dofs fb
        (mergeInit V) b2).dofPriority d < q1 := by
      rw [hP2]
      by_cases hc2 : d ∈ b2.dofs ∧ (mergeInit V).dofPriority d < q2
      · rw [if_pos hc2]
        exact hlt
      · rw [if_neg hc2]
        exact hpos
    rcases mergeStep_char (get_active_state sm).name am.dofs fb
      (mergeStep (get_active_state sm).name am.dofs fb (mergeInit V) b2)
      b1 p1 q1 d hp1 hq1 with ⟨_, hV1⟩
    rw [hV1, if_pos ⟨hd1, hlt2⟩]

/-- Claim C2 as amended. With exactly two eligible behaviors claiming DOF
`d` for the active state at the same strictly positive priority, the
first-declared behavior's proposal is the published value at `d`, and
reordering the declaration list changes the tie winner accordingly;
moreover one merge step with a priority at or below the recorded one never
overwrites an already-written value. -/
theorem tie_first_declared_wins {F V : Type} [Zero V]
    (modes : List ControlMode) (sm : StateMachine) (fb : F)
    (am : ControlMode) (b1 b2 : BehaviorContainer F V)
    (p1 p2 : DofIdx → V) (q : Int) (d : DofIdx)
    (hm : modes.find? (fun m => m.name == (get_active_state sm).mode) =
      some am)
    (hp1 : b1.propose am.dofs fb = some p1)
    (hp2 : b2.propose am.dofs fb = some p2)
    (hq1 : b1.opts_states.lookup (get_active_state sm).name = some q)
    (hq2 : b2.opts_states.lookup (get_active_state sm).name = some q)
    (hd1 : d ∈ b1.dofs) (hd2 : d ∈ b2.dofs) (hpos : 0 < q) :
    (f_iterate (some fb) modes sm [b1, b2]).published.map
        (fun c => c.values d) = some (p1 d)
    ∧ (f_iterate (some fb) modes sm [b2, b1]).published.map
        (fun c => c.values d) = some (p2 d)
    ∧ ∀ (acc : MergeAcc V) (b3 : BehaviorContainer F V) (p3 : DofIdx → V)
        (q3 : Int), b3.propose am.dofs fb = some p3 →
        b3.opts_states.lookup (get_active_state sm).name = some q3 →
        q3 ≤ acc.dofPriority d →
        (mergeStep (get_active_state sm).name am.dofs fb acc b3).dofCtrl d =
          acc.dofCtrl d := by
  unfold f_iterate
  rw [hm]
  dsimp only [Option.map]
  refine ⟨?_, ?_, ?_⟩
  · have hmb : mergeBehaviors (get_active_state sm).name am.dofs fb [b1, b2] =
        mergeStep (get_active_state sm).name am.dofs fb
          (mergeStep (get_active_state sm).name am.dofs fb (mergeInit V) b1)
          b2 := rfl
    rw [hmb]
    rcases mergeStep_char (get_active_state sm).name am.dofs fb (mergeInit V)
      b1 p1 q d hp1 hq1 with ⟨hP1, hV1⟩
    have hacc1 : (mergeStep (get_active_state sm).name am.dofs fb
        (mergeInit V) b1).dofPriority d = q := by
      rw [hP1, if_pos ⟨hd1, hpos⟩]
    rcases mergeStep_char (get_active_state sm).name am.dofs fb
      (mergeStep (get_active_state sm).name am.dofs fb (mergeInit V) b1)
      b2 p2 q d hp2 hq2 with ⟨_, hV2⟩
    rw [hV2, if_neg (fun hc => absurd hc.2 (by rw [hacc1]; exact lt_irrefl q)),
      hV1, if_pos ⟨hd1, hpos⟩]
  · have hmb : mergeBehaviors (get_active_state sm).name am.dofs fb [b2, b1] =
        mergeStep (get_active_state sm).name am.dofs fb
          (mergeStep (get_active_state sm).name am.dofs fb (mergeInit V) b2)
          b1 := rfl
    rw [hmb]
    rcases mergeStep_char (get_active_state sm).name am.dofs fb (mergeInit V)
      b2 p2 q d hp2 hq2 with ⟨hP2, hV2⟩
    have hacc2 : (mergeStep (get_active_state sm).name am.dofs fb
        (mergeInit V) b2).dofPriority d = q := by
      rw [hP2, if_pos ⟨hd2, hpos⟩]
    rcases mergeStep_char (get_active_state sm).name am.dofs fb
      (mergeStep (get_active_state sm).name am.dofs fb (mergeInit V) b2)
      b1 p1 q d hp1 hq1 with ⟨_, hV1⟩
    rw [hV1, if_neg (fun hc => absurd hc.2 (by rw [hacc2]; exact lt_irrefl q)),
      hV2, if_pos ⟨hd2, hpos⟩]
  · intro acc b3 p3 q3 hp3 hq3 hle
    rcases mergeStep_char (get_active_state sm).name am.dofs fb acc
      b3 p3 q3 d hp3 hq3 with ⟨_, hV3⟩
    rw [hV3, if_neg (fun hc => absurd hc.2 (not_lt_of_le hle))]

/-! ## Concrete fixtures, witnesses and counterexamples -/

/-- The pitch DOF index used by the concrete scenarios. -/
def dofPitch : DofIdx := ⟨4, by decide⟩

/-- The heave DOF index used by the concrete scenarios. -/
def dofZ : DofIdx := ⟨2, by decide⟩

/-- A concrete active state named `S` running controller mode `flight`. -/
def exState : SmState :=
  { name := "S", mode := "flight", initial := true, transitions := [] }

/-- A concrete state machine whose active state is `exState`. -/
def exSm : StateMachine := { states := [exState], active := exState }

/-- A concrete controller mode `flight` governing the pitch DOF. -/
def exMode : ControlMode := { name := "flight", dofs := [dofPitch] }

/-- The cached controller-mode table for the concrete scenarios. -/
def exModes : List ControlMode := [exMode]

/-- A controller mode `flight` that governs only the heave DOF. -/
def exModeZ : ControlMode := { name := "flight", dofs := [dofZ] }

/-- A proposal function that always succeeds with the constant value `v`. -/
def constProposal (v : Int) : List DofIdx → Unit → Option (DofIdx → Int) :=
  fun _ _ => some (fun _ => v)

/-- A behavior container claiming pitch, proposing the constant `v`, with
priority `q` in state `S`. -/
def bhvOf (v q : Int) : BehaviorContainer Unit Int :=
  { dofs := [dofPitch], propose := constProposal v,
    opts_states := [("S", q)] }

/-- A behavior container keyed only for a state `T` that is never active. -/
def bhvGated : BehaviorContainer Unit Int :=
  { dofs := [dofPitch], propose := constProposal 9,
    opts_states := [("T", 5)] }

/-- Witness for the amended claim C1: priorities 10 against 2 on pitch, in
both declaration orders the priority-10 proposal (5) is published. -/
theorem strict_priority_wins_at_point :
    (f_iterate (some ()) exModes exSm [bhvOf 5 10, bhvOf 3 2]).published.map
        (fun c => c.values dofPitch) = some 5
    ∧ (f_iterate (some ()) exModes exSm [bhvOf 3 2, bhvOf 5 10]).published.map
        (fun c => c.values dofPitch) = some 5 :=
  strict_priority_wins exModes exSm () exMode (bhvOf 5 10) (bhvOf 3 2)
    (fun _ => 5) (fun _ => 3) 10 2 dofPitch rfl rfl rfl rfl rfl
    (by decide) (by decide) (by decide) (by decide)

/-- Counterexample to claim C1 as stated: two eligible behaviors claiming
pitch in state `S` with different priorities 0 and -1; in both orders the
published pitch value is the zero-initialised 0, not the higher-priority
behavior's proposal 5 — a non-positive priority never beats the zero floor. -/
theorem strict_priority_fails_at_zero :
    ((bhvOf 5 0).propose exMode.dofs ()).isSome = true
    ∧ ((bhvOf 3 (-1)).propose exMode.dofs ()).isSome = true
    ∧ List.lookup (get_active_state exSm).name (bhvOf 5 0).opts_states =
        some 0
    ∧ List.lookup (get_active_state exSm).name (bhvOf 3 (-1)).opts_states =
        some (-1)
    ∧ dofPitch ∈ (bhvOf 5 0).dofs
    ∧ dofPitch ∈ (bhvOf 3 (-1)).dofs
    ∧ ((bhvOf 5 0).propose exMode.dofs ()).map (fun p => p dofPitch) = some 5
    ∧ (f_iterate (some ()) exModes exSm [bhvOf 5 0, bhvOf 3 (-1)]).published.map
        (fun c => c.values dofPitch) = some 0
    ∧ (f_iterate (some ()) exModes exSm [bhvOf 3 (-1), bhvOf 5 0]).published.map
        (fun c => c.values dofPitch) = some 0
    ∧ (0 : Int) ≠ 5 := by
  refine ⟨rfl, rfl, rfl, rfl, by decide, by decide, rfl, rfl, rfl, by decide⟩

/-- Witness for the amended claim C2: equal priority 7 on pitch; the
first-declared behavior wins, and reordering flips the winner. -/
theorem tie_first_declared_wins_at_point :
    (f_iterate (some ()) exModes exSm [bhvOf 5 7, bhvOf 3 7]).published.map
        (fun c => c.values dofPitch) = some 5
    ∧ (f_iterate (some ()) exModes exSm [bhvOf 3 7, bhvOf 5 7]).published.map
        (fun c => c.values dofPitch) = some 3
    ∧ ∀ (acc : MergeAcc Int) (b3 : BehaviorContainer Unit Int)
        (p3 : DofIdx → Int) (q3 : Int),
        b3.propose exMode.dofs () = some p3 →
        List.lookup (get_active_state exSm).name b3.opts_states = some q3 →
        q3 ≤ acc.dofPriority dofPitch →
        (mergeStep (get_active_state exSm).name exMode.dofs () acc b3).dofCtrl
            dofPitch = acc.dofCtrl dofPitch :=
  tie_first_declared_wins exModes exSm () exMode (bhvOf 5 7) (bhvOf 3 7)
    (fun _ => 5) (fun _ => 3) 7 dofPitch rfl rfl rfl rfl rfl
    (by decide) (by decide) (by decide)

/-- Counterexample to claim C2 as stated: two eligible behaviors claiming
pitch in state `S` at equal priority 0; the published pitch value is the
zero-initialised 0, not the first-declared behavior's proposal 5. -/
theorem tie_fails_at_zero :
    ((bhvOf 5 0).propose exMode.dofs ()).isSome = true
    ∧ ((bhvOf 3 0).propose exMode.dofs ()).isSome = true
    ∧ List.lookup (get_active_state exSm).name (bhvOf 5 0).opts_states =
        some 0
    ∧ List.lookup (get_active_state exSm).name (bhvOf 3 0).opts_states =
        some 0
    ∧ dofPitch ∈ (bhvOf 5 0).dofs
    ∧ dofPitch ∈ (bhvOf 3 0).dofs
    ∧ ((bhvOf 5 0).propose exMode.dofs ()).map (fun p => p dofPitch) = some 5
    ∧ (f_iterate (some ()) exModes exSm [bhvOf 5 0, bhvOf 3 0]).published.map
        (fun c => c.values dofPitch) = some 0
    ∧ (0 : Int) ≠ 5 := by
  refine ⟨rfl, rfl, rfl, rfl, by decide, by decide, rfl, rfl, by decide⟩

/-- Witness for claim C7: a behavior keyed only for state `T` contributes
nothing while state `S` is active. -/
theorem state_gating_at_point :
    f_iterate (some ()) exModes exSm ([] ++ bhvGated :: []) =
      f_iterate (some ()) exModes exSm
        ([] ++ ([] : List (BehaviorContainer Unit Int))) :=
  state_gating (some ()) exModes exSm [] [] bhvGated (by decide)

/-- Witness for claim C9: a behavior with priority 0 in the active state
contributes nothing next to a priority-2 behavior, and the zero floor holds. -/
theorem nonpositive_priority_at_point :
    (f_iterate (some ()) exModes exSm ([] ++ bhvOf 9 0 :: [bhvOf 3 2]) =
      f_iterate (some ()) exModes exSm ([] ++ [bhvOf 3 2]))
    ∧ ∀ (n : String) (A : List DofIdx) (fb : Unit)
        (bs : List (BehaviorContainer Unit Int)) (d : DofIdx),
        0 ≤ (mergeBehaviors n A fb bs).dofPriority d
        ∧ ((mergeBehaviors n A fb bs).dofPriority d = 0 →
          (mergeBehaviors n A fb bs).dofCtrl d = 0) :=
  nonpositive_priority_contributes_nothing (some ()) exModes exSm []
    [bhvOf 3 2] (bhvOf 9 0) 0 rfl (by decide)

/-- Witness for claim C10: the active mode governs only heave, yet the
behavior's claimed pitch value is still written into the published command. -/
theorem claimed_dof_outside_mode_at_point :
    (f_iterate (some ()) [exModeZ] exSm [bhvOf 5 3]).published.map
        (fun c => c.values dofPitch) = some 5 :=
  claimed_dof_outside_mode_written [exModeZ] exSm () exModeZ (bhvOf 5 3)
    (fun _ => 5) 3 dofPitch rfl (by decide) rfl rfl (by decide) (by decide)

end MvpHelm
